import Mathlib

/-!
# Verification of `scan_projects.py`

A shallow embedding of the pure logic of `scan_projects/scan_projects.py`.
Filesystem reads, `time.time()` and `json.load` results are passed in as
explicit values (`Option` models a missing/unreadable file; an `Option Nat`
entry in a walk models a file whose mtime read may raise `OSError`); every
function below is a direct translation of the corresponding Python code.
-/

set_option autoImplicit false

namespace ScanProjects

/-! ## `get_last_modified` (lines 13-24)

`os.walk` is modelled as the list of files it would visit, each carrying
`some mtime` when `os.path.getmtime` succeeds and `none` when it raises
`OSError` (the file is then skipped by the `except OSError: continue`).
Modification timestamps are epoch seconds, modelled as `Nat`.
-/

/-- The loop `latest = 0; for ...: latest = max(latest, mtime)` of
`get_last_modified`, with the accumulator made explicit. -/
def glmLoop (latest : Nat) : List (Option Nat) → Nat
  | [] => latest
  | none :: rest => glmLoop latest rest
  | some t :: rest => glmLoop (max latest t) rest

/-- Function `get_last_modified`: maximum mtime over the walk, `0` initial value;
unreadable entries (`none`) are skipped. -/
def get_last_modified (walk : List (Option Nat)) : Nat :=
  glmLoop 0 walk

/-! ## `format_time_ago` (lines 26-42)

The current clock value `time.time()` is passed in as `now`; timestamps are
whole epoch seconds (`Int`, so that a timestamp in the future produces the
negative difference the Python float subtraction would).  `int(diff / 60)`
on an integral-valued float truncates toward zero, i.e. `Int.tdiv`. -/

/-- Function `format_time_ago(timestamp)` evaluated when `time.time()` returns `now`. -/
def format_time_ago (now timestamp : Int) : String :=
  if timestamp = 0 then "Never modified"
  else
    let diff := now - timestamp
    if diff < 60 then "Just now"
    else if diff < 3600 then
      let minutes := Int.tdiv diff 60
      toString minutes ++ " minute" ++ (if minutes ≠ 1 then "s" else "") ++ " ago"
    else if diff < 86400 then
      let hours := Int.tdiv diff 3600
      toString hours ++ " hour" ++ (if hours ≠ 1 then "s" else "") ++ " ago"
    else
      let days := Int.tdiv diff 86400
      toString days ++ " day" ++ (if days ≠ 1 then "s" else "") ++ " ago"

/-! ## `get_python_version` (lines 55-66)

The file is modelled as `Option (List (List Char))`: `none` when
`pyproject.toml` is missing or `open`/iteration raises (the `except: pass`
path), otherwise the list of its lines.  The Python string operations used
(`in`, `split("=")`, `.strip()`, `.strip('"')`) are modelled on `List Char`
so every step is a small executable function. -/

/-- Python's `needle in haystack` substring test. -/
def containsSub (haystack needle : List Char) : Bool :=
  match haystack with
  | [] => needle.isEmpty
  | _ :: t => needle.isPrefixOf haystack || containsSub t needle

/-- Python's `s.split(sep)` for a single-character separator: splits at every
occurrence, keeping empty pieces, never returning an empty list. -/
def splitOnChar (c : Char) : List Char → List (List Char)
  | [] => [[]]
  | x :: xs =>
    if x == c then [] :: splitOnChar c xs
    else
      match splitOnChar c xs with
      | [] => [[x]]
      | r :: rs => (x :: r) :: rs

/-- Python's `str.isspace` characters as recognised by `.strip()`. -/
def pyIsSpace (c : Char) : Bool :=
  c == ' ' || c == '\t' || c == '\n' || c == '\x0d' || c == '\x0b' || c == '\x0c'

/-- Python's `s.strip(chars)`: drop characters satisfying `p` from both ends. -/
def pyStrip (p : Char → Bool) (l : List Char) : List Char :=
  ((l.dropWhile p).reverse.dropWhile p).reverse

/-- The key searched for by `get_python_version`. -/
def requiresPythonKey : List Char := "requires-python".toList

/-- Expression `line.split("=")[-1].strip().strip('"')`. -/
def extractVersionValue (line : List Char) : List Char :=
  pyStrip (fun c => c == '"') (pyStrip pyIsSpace ((splitOnChar '=' line).getLastD []))

/-- The `for line in f` scan of `get_python_version`: return on the first
line containing `"requires-python"`. -/
def gpvScan : List (List Char) → Option (List Char)
  | [] => none
  | line :: rest =>
    if containsSub line requiresPythonKey then some (extractVersionValue line)
    else gpvScan rest

/-- Function `get_python_version`: `none` models a missing or unreadable
`pyproject.toml` (both give `None` in the source). -/
def get_python_version (file : Option (List (List Char))) : Option (List Char) :=
  match file with
  | none => none
  | some lines => gpvScan lines

/-! ## `check_project_environment`, node package info (lines 68-125)

`json.load(f)` is modelled by a `Json` value; the input to the node-info
block is `Option Json`, where `none` covers both a missing `package.json`
and a `json.load` failure (malformed JSON) — both leave
`node_package_info = {}` in the source, which we model as `none`. -/

/-- A parsed JSON value, as returned by `json.load`. -/
inductive Json where
  | null : Json
  | bool (b : Bool) : Json
  | num (n : Int) : Json
  | str (s : String) : Json
  | arr (elems : List Json) : Json
  | obj (fields : List (String × Json)) : Json

/-- Python `dict.get(key)`: first binding of `key` (JSON objects decoded by
`json.load` have unique keys). -/
def pyDictGet (fields : List (String × Json)) (key : String) : Option Json :=
  match fields with
  | [] => none
  | (k, v) :: rest => if k == key then some v else pyDictGet rest key

/-- Whether a JSON value is the Python string `s` (used for `==` against a
string inside a list membership test). -/
def jsonIsStr (s : String) : Json → Bool
  | .str t => t == s
  | _ => false

/-- Python's `key in x` for a decoded JSON value `x`: key membership for a
dict, element equality for a list, substring test for a string; `none`
models the `TypeError` raised on other types (caught by the enclosing
`except`). -/
def pyInJson (key : String) : Json → Option Bool
  | .obj fields => some (fields.any fun p => p.1 == key)
  | .arr elems => some (elems.any (jsonIsStr key))
  | .str s => some (containsSub s.toList key.toList)
  | _ => none

/-- Python's short-circuiting `or` over two tests that may raise. -/
def pyOrElse (a : Option Bool) (b : Unit → Option Bool) : Option Bool :=
  match a with
  | none => none
  | some true => some true
  | some false => b ()

/-- The `node_package_info` dict built at lines 100-106 (absent = `{}`). -/
structure NodeInfo where
  name : Json
  version : Json
  type : Json
  has_typescript : Bool

/-- The node-info block of `check_project_environment`: `none` when the file
is missing, `json.load` fails, the top-level value is not a dict (the
`.get` call raises `AttributeError`), or an `in` test raises `TypeError` —
all swallowed by the `except: pass`, leaving the info dict `{}`. -/
def node_package_info (package_json : Option Json) : Option NodeInfo :=
  match package_json with
  | none => none
  | some (Json.obj fields) =>
    let deps := (pyDictGet fields "dependencies").getD (Json.obj [])
    let devDeps := (pyDictGet fields "devDependencies").getD (Json.obj [])
    match pyOrElse (pyInJson "typescript" deps) (fun _ => pyInJson "typescript" devDeps) with
    | none => none
    | some ts =>
      some { name := (pyDictGet fields "name").getD (Json.str "")
             version := (pyDictGet fields "version").getD (Json.str "")
             type := (pyDictGet fields "type").getD (Json.str "commonjs")
             has_typescript := ts }
  | some _ => none

/-- The dict returned by `check_project_environment` (lines 110-125); each
existence probe is a boolean input here, `is_poetry` is the substring-probe
result, `node_info` the record above. -/
structure EnvironmentInfo where
  has_pyproject : Bool
  has_uv_lock : Bool
  has_poetry_lock : Bool
  has_venv : Bool
  is_poetry : Bool
  has_package_json : Bool
  has_node_modules : Bool
  has_package_lock : Bool
  has_yarn_lock : Bool
  has_pnpm_lock : Bool
  node_info : Option NodeInfo

/-! ## `determine_project_type` (lines 127-151) -/

/-- Expression `env_info['node_info'].get('has_typescript')` under Python truthiness:
`{}` (our `none`) gives `None`, which is falsy. -/
def nodeInfoHasTS : Option NodeInfo → Bool
  | none => false
  | some info => info.has_typescript

/-- Function `determine_project_type`: build the Python label (if any), then the Node
label (if any); an empty list is replaced by `['Unknown']`. -/
def determine_project_type (env_info : EnvironmentInfo) : List String :=
  let types : List String := []
  let types :=
    if env_info.has_pyproject || env_info.has_venv then
      types ++ [if env_info.has_uv_lock then "UV Python"
                else if env_info.is_poetry then "Poetry Python"
                else "Python"]
    else types
  let types :=
    if env_info.has_package_json then
      let node_type := if nodeInfoHasTS env_info.node_info then "TypeScript" else "JavaScript"
      let package_manager :=
        if env_info.has_yarn_lock then "yarn"
        else if env_info.has_pnpm_lock then "pnpm"
        else "npm"
      types ++ [node_type ++ " (" ++ package_manager ++ ")"]
    else types
  if types.isEmpty then ["Unknown"] else types

/-- The three labels the Python branch of `determine_project_type` can emit. -/
def pythonFamilyLabels : List String := ["UV Python", "Poetry Python", "Python"]

/-- The six labels the Node branch of `determine_project_type` can emit. -/
def nodeFamilyLabels : List String :=
  ["JavaScript (npm)", "JavaScript (yarn)", "JavaScript (pnpm)",
   "TypeScript (npm)", "TypeScript (yarn)", "TypeScript (pnpm)"]

/-! ## The `--limit` logic of `main` (lines 276-281)

`args.limit` is `Option Int` (`none` when the flag is absent).  The source
guards the slice with `if args.limit:` — Python truthiness, under which
both `None` and `0` skip the slice — and then prints `"No projects found."`
and returns, rendering nothing, exactly when the resulting list is empty. -/

/-- Python truthiness of `args.limit`. -/
def limitTruthy : Option Int → Bool
  | none => false
  | some n => n != 0

/-- Python's `xs[:n]` slice for an integer `n` (negative `n` counts from the
end: the stop index is `max 0 (len + n)`). -/
def pySliceTo {α : Type} (xs : List α) (n : Int) : List α :=
  if 0 ≤ n then xs.take n.toNat else xs.take (xs.length - (-n).toNat)

/-- Lines 276-277: `if args.limit: projects = projects[:args.limit]`. -/
def main_limited {α : Type} (limit : Option Int) (projects : List α) : List α :=
  if limitTruthy limit then pySliceTo projects (limit.getD 0) else projects

/-- Lines 279-281 and onward: `some rendered` is the list the per-project
rendering loop iterates over; `none` means the `"No projects found."`
message was printed and nothing was rendered. -/
def main_report {α : Type} (limit : Option Int) (projects : List α) : Option (List α) :=
  let limited := main_limited limit projects
  if limited.isEmpty then none else some limited

/-! ## Helper lemmas -/

theorem glmLoop_eq_max (acc : Nat) (walk : List (Option Nat)) :
    glmLoop acc walk = max acc ((walk.filterMap id).foldr max 0) := by
  induction walk generalizing acc with
  | nil => simp [glmLoop]
  | cons h t ih =>
    cases h with
    | none => simpa [glmLoop] using ih acc
    | some v => simp [glmLoop, ih, Nat.max_assoc]

theorem foldrMax_ge (l : List Nat) : ∀ t ∈ l, t ≤ l.foldr max 0 := by
  induction l with
  | nil => simp
  | cons h t ih =>
    intro x hx
    rcases List.mem_cons.mp hx with rfl | hx
    · exact Nat.le_max_left _ _
    · exact Nat.le_trans (ih x hx) (Nat.le_max_right _ _)

theorem foldrMax_mem (l : List Nat) : l.foldr max 0 ∈ l ∨ l.foldr max 0 = 0 := by
  induction l with
  | nil => simp
  | cons h t ih =>
    simp only [List.foldr]
    rcases Nat.le_total (t.foldr max 0) h with hle | hle
    · left
      rw [Nat.max_eq_left hle]
      exact List.mem_cons_self _ _
    · rw [Nat.max_eq_right hle]
      rcases ih with hm | hz
      · left
        exact List.mem_cons_of_mem _ hm
      · right
        exact hz

theorem get_last_modified_eq_foldr (walk : List (Option Nat)) :
    get_last_modified walk = (walk.filterMap id).foldr max 0 := by
  simpa [get_last_modified] using glmLoop_eq_max 0 walk

/-! ## Claim theorems -/

/-- Claim C7: `get_last_modified` returns the maximum modification timestamp
over all readable files of the walk; entries whose mtime read fails are
skipped silently and do not affect the result; a walk with no readable
files (in particular an empty one) yields exactly `0`. -/
theorem get_last_modified_spec (walk : List (Option Nat)) :
    (∀ t ∈ walk.filterMap id, t ≤ get_last_modified walk) ∧
    (get_last_modified walk ∈ walk.filterMap id ∨ get_last_modified walk = 0) ∧
    get_last_modified walk = get_last_modified ((walk.filterMap id).map some) ∧
    (walk.filterMap id = [] → get_last_modified walk = 0) := by
  rw [get_last_modified_eq_foldr]
  refine ⟨foldrMax_ge _, foldrMax_mem _, ?_, ?_⟩
  · rw [get_last_modified_eq_foldr]
    congr 1
    simp
  · intro h
    rw [h]
    rfl

/-- Concrete instantiation of `get_last_modified_spec`. -/
theorem get_last_modified_spec_witness :
    get_last_modified [some 5, none, some 9, some 3] = 9 ∧
    5 ≤ get_last_modified [some 5, none, some 9, some 3] ∧
    get_last_modified ([] : List (Option Nat)) = 0 := by
  refine ⟨by decide, ?_, ?_⟩
  · exact (get_last_modified_spec [some 5, none, some 9, some 3]).1 5 (by decide)
  · exact (get_last_modified_spec []).2.2.2 (by decide)

theorem tdiv_cast (m k : Nat) : Int.tdiv (m : Int) (k : Int) = ((m / k : Nat) : Int) := rfl

theorem toString_natCast (m : Nat) : toString ((m : Int)) = toString m := rfl

theorem plural_if (m : Nat) :
    (if ((m : Int)) ≠ 1 then "s" else "") = (if m = 1 then "" else "s") := by
  by_cases h : m = 1
  · subst h
    simp
  · rw [if_pos, if_neg h]
    exact fun hc => h (by exact_mod_cast hc)

/-- Claim C5: `format_time_ago` maps timestamp `0` to `"Never modified"`;
otherwise, with `e` the elapsed whole seconds, `e < 60` gives `"Just now"`,
`60 ≤ e < 3600` gives `⌊e/60⌋` minutes ago, `3600 ≤ e < 86400` gives
`⌊e/3600⌋` hours ago, `86400 ≤ e` gives `⌊e/86400⌋` days ago, the unit word
singular exactly when the count is `1`.  (`format_time_ago now 0 = "Never
modified"` holds by definition; the buckets are below.) -/
theorem format_time_ago_spec (now ts e : Int) (h0 : ts ≠ 0) (he : now - ts = e) :
    (e < 60 → format_time_ago now ts = "Just now") ∧
    (60 ≤ e → e < 3600 →
      format_time_ago now ts =
        toString (e.toNat / 60) ++ " minute" ++
          (if e.toNat / 60 = 1 then "" else "s") ++ " ago") ∧
    (3600 ≤ e → e < 86400 →
      format_time_ago now ts =
        toString (e.toNat / 3600) ++ " hour" ++
          (if e.toNat / 3600 = 1 then "" else "s") ++ " ago") ∧
    (86400 ≤ e →
      format_time_ago now ts =
        toString (e.toNat / 86400) ++ " day" ++
          (if e.toNat / 86400 = 1 then "" else "s") ++ " ago") := by
  refine ⟨?_, ?_, ?_, ?_⟩
  · intro h
    unfold format_time_ago
    rw [if_neg h0, if_pos (by omega)]
  · intro h1 h2
    have h3 : now - ts = ((e.toNat : Nat) : Int) := by omega
    unfold format_time_ago
    rw [if_neg h0, if_neg (by omega), if_pos (by omega), h3,
      show (60 : Int) = ((60 : Nat) : Int) from rfl, tdiv_cast]
    simp only [toString_natCast]
    rw [plural_if]
  · intro h1 h2
    have h3 : now - ts = ((e.toNat : Nat) : Int) := by omega
    unfold format_time_ago
    rw [if_neg h0, if_neg (by omega), if_neg (by omega), if_pos (by omega), h3,
      show (3600 : Int) = ((3600 : Nat) : Int) from rfl, tdiv_cast]
    simp only [toString_natCast]
    rw [plural_if]
  · intro h1
    have h3 : now - ts = ((e.toNat : Nat) : Int) := by omega
    unfold format_time_ago
    rw [if_neg h0, if_neg (by omega), if_neg (by omega), if_neg (by omega), h3,
      show (86400 : Int) = ((86400 : Nat) : Int) from rfl, tdiv_cast]
    simp only [toString_natCast]
    rw [plural_if]

/-- Concrete instantiations of `format_time_ago_spec` at the boundary
elapsed values 59, 60, 3599 and 3600 seconds. -/
theorem format_time_ago_spec_witness :
    format_time_ago 100 41 = "Just now" ∧
    format_time_ago 100 40 = "1 minute ago" ∧
    format_time_ago 3640 41 = "59 minutes ago" ∧
    format_time_ago 3641 41 = "1 hour ago" := by
  refine ⟨(format_time_ago_spec 100 41 59 (by decide) (by decide)).1 (by decide), ?_, ?_, ?_⟩
  · rw [(format_time_ago_spec 100 40 60 (by decide) (by decide)).2.1 (by decide) (by decide)]
    rfl
  · rw [(format_time_ago_spec 3640 41 3599 (by decide) (by decide)).2.1 (by decide) (by decide)]
    rfl
  · rw [(format_time_ago_spec 3641 41 3600 (by decide) (by decide)).2.2.1 (by decide) (by decide)]
    rfl

/-- Claim C9: a nonzero timestamp strictly in the future makes the elapsed
difference negative, which satisfies the first bucket's `< 60` test, so
`format_time_ago` answers `"Just now"` with no error and no distinct
output. -/
theorem format_time_ago_future (now ts : Int) (h0 : ts ≠ 0) (hf : now < ts) :
    format_time_ago now ts = "Just now" := by
  unfold format_time_ago
  rw [if_neg h0, if_pos (by omega)]

/-- Concrete instantiation of `format_time_ago_future`. -/
theorem format_time_ago_future_witness : format_time_ago 10 20 = "Just now" :=
  format_time_ago_future 10 20 (by decide) (by decide)

/-- Claim C1 counterexample: with `--limit 0` and the non-empty post-filter
list `[1, 2, 3]`, the rendered listing is NOT truncated to zero records and
the `"No projects found."` message is NOT printed: `0` is falsy, so the
slice at line 277 is skipped entirely. -/
theorem main_limit_zero_counterexample :
    main_limited (some 0) [(1 : Nat), 2, 3] = [1, 2, 3] ∧
    main_report (some 0) [(1 : Nat), 2, 3] ≠ none := by decide

/-- Claim C1 (amended): `if args.limit:` treats the integer `0` like `None`,
so `--limit 0` leaves a non-empty post-filter list untouched: the full list
is rendered and the `"No projects found."` message is not printed. -/
theorem main_limit_zero_ignored {α : Type} (projects : List α) (h : projects ≠ []) :
    main_limited (some 0) projects = projects ∧
    main_report (some 0) projects = some projects := by
  have h1 : main_limited (some 0) projects = projects := by
    simp [main_limited, limitTruthy]
  refine ⟨h1, ?_⟩
  rw [main_report, h1, if_neg]
  simp [h]

/-- Concrete instantiation of `main_limit_zero_ignored`. -/
theorem main_limit_zero_ignored_witness :
    main_limited (some 0) [(5 : Nat), 7] = [5, 7] ∧
    main_report (some 0) [(5 : Nat), 7] = some [5, 7] :=
  main_limit_zero_ignored [(5 : Nat), 7] (by decide)

/-- Claim C8: a negative `--limit` is truthy, so it is applied as the Python
slice `projects[:N]`: the rendered list is the input with its last `|N|`
records removed, which is empty (printing `"No projects found."`) exactly
when `|N|` reaches the list length. -/
theorem main_limit_negative {α : Type} (n : Int) (hn : n < 0) (projects : List α)
    (h : projects ≠ []) :
    main_limited (some n) projects = projects.rdrop (-n).toNat ∧
    (projects.length ≤ (-n).toNat → main_report (some n) projects = none) ∧
    ((-n).toNat < projects.length →
      main_report (some n) projects = some (projects.rdrop (-n).toNat)) := by
  have htr : limitTruthy (some n) = true := by
    simp only [limitTruthy, bne_iff_ne]
    omega
  have h1 : main_limited (some n) projects = projects.rdrop (-n).toNat := by
    rw [main_limited, if_pos htr, Option.getD_some]
    rw [pySliceTo, if_neg (by omega)]
    rfl
  refine ⟨h1, ?_, ?_⟩
  · intro hlen
    rw [main_report, h1, if_pos]
    have : projects.length - (-n).toNat = 0 := Nat.sub_eq_zero_of_le hlen
    simp [List.rdrop, this]
  · intro hlen
    rw [main_report, h1, if_neg]
    simp only [List.rdrop, List.isEmpty_eq_true, List.take_eq_nil_iff]
    push_neg
    exact ⟨by omega, h⟩

/-- Concrete instantiations of `main_limit_negative`. -/
theorem main_limit_negative_witness :
    main_limited (some (-2)) [(1 : Nat), 2, 3] = [1] ∧
    main_report (some (-5)) [(1 : Nat), 2, 3] = none := by
  constructor
  · have h := (main_limit_negative (-2) (by decide) [(1 : Nat), 2, 3] (by decide)).1
    rw [h]
    decide
  · exact (main_limit_negative (-5) (by decide) [(1 : Nat), 2, 3] (by decide)).2.1 (by decide)

theorem dpt_eq (env : EnvironmentInfo) :
    determine_project_type env =
      (if env.has_pyproject || env.has_venv then
        [if env.has_uv_lock then "UV Python"
         else if env.is_poetry then "Poetry Python"
         else "Python"]
       else []) ++
      (if env.has_package_json then
        [(if nodeInfoHasTS env.node_info then "TypeScript" else "JavaScript") ++
         " (" ++ (if env.has_yarn_lock then "yarn"
                  else if env.has_pnpm_lock then "pnpm"
                  else "npm") ++ ")"]
       else []) ++
      (if env.has_pyproject || env.has_venv || env.has_package_json then []
       else ["Unknown"]) := by
  unfold determine_project_type
  cases h1 : env.has_pyproject <;> cases h2 : env.has_venv <;>
    cases h3 : env.has_package_json <;> simp

/-- Claim C3: `determine_project_type` emits at most one Python label, chosen
by first-match precedence (`"UV Python"` if `has_uv_lock`, else
`"Poetry Python"` if `is_poetry`, else `"Python"`) when `has_pyproject` or
`has_venv` holds, and independently at most one Node label
`"<lang> (<manager>)"` (`"TypeScript"` iff the typescript flag, manager
`yarn` before `pnpm` before `npm`) when `has_package_json` holds; when both
ecosystems fire, both labels appear together in that order. -/
theorem determine_project_type_labels (env : EnvironmentInfo) :
    determine_project_type env =
      (if env.has_pyproject || env.has_venv then
        [if env.has_uv_lock then "UV Python"
         else if env.is_poetry then "Poetry Python"
         else "Python"]
       else []) ++
      (if env.has_package_json then
        [(if nodeInfoHasTS env.node_info then "TypeScript" else "JavaScript") ++
         " (" ++ (if env.has_yarn_lock then "yarn"
                  else if env.has_pnpm_lock then "pnpm"
                  else "npm") ++ ")"]
       else []) ++
      (if env.has_pyproject || env.has_venv || env.has_package_json then []
       else ["Unknown"]) :=
  dpt_eq env

/-- Claim C4: the label list is never empty; when neither the Python
condition (`has_pyproject ∨ has_venv`) nor the Node condition
(`has_package_json`) fires, the result is exactly `["Unknown"]`. -/
theorem determine_project_type_nonempty (env : EnvironmentInfo) :
    determine_project_type env ≠ [] ∧
    ((env.has_pyproject || env.has_venv) = false → env.has_package_json = false →
      determine_project_type env = ["Unknown"]) := by
  rw [dpt_eq env]
  cases h1 : env.has_pyproject <;> cases h2 : env.has_venv <;>
    cases h3 : env.has_package_json <;> simp

/-- Concrete instantiation of `determine_project_type_nonempty`: a directory
with no markers at all classifies as `["Unknown"]`. -/
theorem determine_project_type_nonempty_witness :
    determine_project_type
      { has_pyproject := false, has_uv_lock := false, has_poetry_lock := false,
        has_venv := false, is_poetry := false, has_package_json := false,
        has_node_modules := false, has_package_lock := false, has_yarn_lock := false,
        has_pnpm_lock := false, node_info := none } = ["Unknown"] :=
  (determine_project_type_nonempty _).2 rfl rfl

/-- Claim C10: the label list has length at most 2, contains at most one
Python-family label and at most one Node-family label, and the sentinel
`"Unknown"` never co-occurs with any other label. -/
theorem determine_project_type_bounds (env : EnvironmentInfo) :
    (determine_project_type env).length ≤ 2 ∧
    (determine_project_type env).countP (fun s => pythonFamilyLabels.contains s) ≤ 1 ∧
    (determine_project_type env).countP (fun s => nodeFamilyLabels.contains s) ≤ 1 ∧
    ("Unknown" ∈ determine_project_type env → determine_project_type env = ["Unknown"]) := by
  rw [dpt_eq env]
  cases h1 : env.has_pyproject <;> cases h2 : env.has_venv <;>
    cases h3 : env.has_package_json <;> cases h4 : env.has_uv_lock <;>
    cases h5 : env.is_poetry <;> cases h6 : nodeInfoHasTS env.node_info <;>
    cases h7 : env.has_yarn_lock <;> cases h8 : env.has_pnpm_lock <;> decide

/-- Concrete instantiations of `determine_project_type_bounds`: a dual
Python/Node project stays within two labels, and a project carrying the
sentinel label carries nothing else. -/
theorem determine_project_type_bounds_witness :
    (determine_project_type
      { has_pyproject := true, has_uv_lock := true, has_poetry_lock := false,
        has_venv := false, is_poetry := false, has_package_json := true,
        has_node_modules := false, has_package_lock := false, has_yarn_lock := true,
        has_pnpm_lock := false, node_info := none }).length ≤ 2 ∧
    determine_project_type
      { has_pyproject := false, has_uv_lock := true, has_poetry_lock := false,
        has_venv := false, is_poetry := true, has_package_json := false,
        has_node_modules := false, has_package_lock := true, has_yarn_lock := true,
        has_pnpm_lock := false, node_info := none } = ["Unknown"] := by
  constructor
  · exact (determine_project_type_bounds _).1
  · exact (determine_project_type_bounds _).2.2.2 (by decide)

theorem pyOrElse_some_some (a b : Bool) :
    pyOrElse (some a) (fun _ => some b) = some (a || b) := by
  cases a <;> rfl

/-- Claim C6: a missing or malformed `package.json` leaves the package-info
record absent with no error surfaced; a manifest that parses to an object
whose dependency fields are mappings (or absent, defaulting to `{}`) yields
a record whose module type defaults to `"commonjs"` when the `"type"` field
is absent and whose typescript flag is set iff the key `"typescript"`
appears in `dependencies` or in `devDependencies`. -/
theorem node_package_info_spec (file : Option Json) :
    (file = none → node_package_info file = none) ∧
    (∀ fields deps devDeps,
      file = some (Json.obj fields) →
      (pyDictGet fields "dependencies").getD (Json.obj []) = Json.obj deps →
      (pyDictGet fields "devDependencies").getD (Json.obj []) = Json.obj devDeps →
      ∃ info, node_package_info file = some info ∧
        info.type = (pyDictGet fields "type").getD (Json.str "commonjs") ∧
        (info.has_typescript = true ↔
          (∃ v, ("typescript", v) ∈ deps) ∨ (∃ v, ("typescript", v) ∈ devDeps))) := by
  constructor
  · rintro rfl
    rfl
  · rintro fields deps devDeps rfl hd hdd
    unfold node_package_info
    dsimp only
    rw [hd, hdd]
    simp only [pyInJson]
    rw [pyOrElse_some_some]
    refine ⟨_, rfl, rfl, ?_⟩
    simp only [Bool.or_eq_true, List.any_eq_true, beq_iff_eq, Prod.exists]
    constructor
    · rintro (⟨a, b, hm, rfl⟩ | ⟨a, b, hm, rfl⟩)
      · exact Or.inl ⟨b, hm⟩
      · exact Or.inr ⟨b, hm⟩
    · rintro (⟨v, hv⟩ | ⟨v, hv⟩)
      · exact Or.inl ⟨"typescript", v, hv, rfl⟩
      · exact Or.inr ⟨"typescript", v, hv, rfl⟩

/-- Concrete instantiations of `node_package_info_spec`: the missing-file
case, and the manifest
`{"name":"x","version":"1.0","dependencies":{"typescript":"^5"}}`. -/
theorem node_package_info_spec_witness :
    node_package_info none = none ∧
    ∃ info,
      node_package_info (some (Json.obj
        [("name", Json.str "x"), ("version", Json.str "1.0"),
         ("dependencies", Json.obj [("typescript", Json.str "^5")])])) = some info ∧
      info.type = Json.str "commonjs" ∧ info.has_typescript = true := by
  constructor
  · exact (node_package_info_spec none).1 rfl
  · obtain ⟨info, h1, h2, h3⟩ := (node_package_info_spec _).2
      [("name", Json.str "x"), ("version", Json.str "1.0"),
       ("dependencies", Json.obj [("typescript", Json.str "^5")])]
      [("typescript", Json.str "^5")] [] rfl rfl rfl
    refine ⟨info, h1, ?_, h3.mpr (Or.inl ⟨Json.str "^5", by simp⟩)⟩
    rw [h2]
    rfl

theorem splitOnChar_ne_nil (c : Char) (xs : List Char) : splitOnChar c xs ≠ [] := by
  cases xs with
  | nil => simp [splitOnChar]
  | cons x t =>
    rw [splitOnChar]
    by_cases h : (x == c) = true
    · rw [if_pos h]
      simp
    · rw [if_neg h]
      cases splitOnChar c t <;> simp

theorem splitOnChar_no_sep (c : Char) (v : List Char) (hv : c ∉ v) :
    splitOnChar c v = [v] := by
  induction v with
  | nil => rfl
  | cons x t ih =>
    have hx : (x == c) = false := by
      simp only [beq_eq_false_iff_ne]
      intro hcc
      exact hv (hcc ▸ List.mem_cons_self x t)
    rw [splitOnChar, if_neg (by simp [hx]), ih (fun hm => hv (List.mem_cons_of_mem _ hm))]

theorem splitOnChar_length_two (c : Char) (l v : List Char) :
    2 ≤ (splitOnChar c (l ++ c :: v)).length := by
  induction l with
  | nil =>
    rw [List.nil_append, splitOnChar, if_pos (by simp)]
    cases hsv : splitOnChar c v with
    | nil => exact absurd hsv (splitOnChar_ne_nil c v)
    | cons r rs => simp
  | cons a l ih =>
    rw [List.cons_append, splitOnChar]
    cases hsv : splitOnChar c (l ++ c :: v) with
    | nil => exact absurd hsv (splitOnChar_ne_nil c _)
    | cons r rs =>
      rw [hsv] at ih
      by_cases h : (a == c) = true
      · rw [if_pos h]
        simp
      · rw [if_neg h]
        dsimp only
        simp at ih ⊢
        omega

theorem getLastD_cons_ne_nil {α : Type} (x d : α) (s : List α) (h : s ≠ []) :
    (x :: s).getLastD d = s.getLastD d := by
  cases s with
  | nil => exact absurd rfl h
  | cons y t => simp [List.getLastD_eq_getLast?, List.getLast?_cons_cons]

theorem splitOnChar_getLastD_append (c : Char) (v : List Char) (hv : c ∉ v) (l : List Char) :
    (splitOnChar c (l ++ c :: v)).getLastD [] = v := by
  induction l with
  | nil =>
    rw [List.nil_append, splitOnChar, if_pos (by simp), splitOnChar_no_sep c v hv]
    rfl
  | cons a l ih =>
    rw [List.cons_append]
    cases hsv : splitOnChar c (l ++ c :: v) with
    | nil => exact absurd hsv (splitOnChar_ne_nil c _)
    | cons r rs =>
      have hlen : 2 ≤ (splitOnChar c (l ++ c :: v)).length := splitOnChar_length_two c l v
      rw [hsv] at hlen ih
      have hrs : rs ≠ [] := by
        intro hnil
        rw [hnil] at hlen
        simp at hlen
      by_cases h : (a == c) = true
      · rw [splitOnChar, if_pos h, hsv, getLastD_cons_ne_nil _ _ _ (by simp)]
        exact ih
      · rw [splitOnChar, if_neg h, hsv]
        dsimp only
        rw [getLastD_cons_ne_nil _ _ _ hrs]
        rw [getLastD_cons_ne_nil _ _ _ hrs] at ih
        exact ih

theorem gpvScan_append (pre post : List (List Char)) (line : List Char)
    (hpre : ∀ l2 ∈ pre, containsSub l2 requiresPythonKey = false)
    (hline : containsSub line requiresPythonKey = true) :
    gpvScan (pre ++ line :: post) = some (extractVersionValue line) := by
  induction pre with
  | nil =>
    rw [List.nil_append, gpvScan, if_pos hline]
  | cons p t ih =>
    have hp := hpre p (List.mem_cons_self _ _)
    rw [List.cons_append, gpvScan, if_neg (by simp [hp])]
    exact ih fun l2 hl2 => hpre l2 (List.mem_cons_of_mem _ hl2)

theorem gpvScan_none (lines : List (List Char))
    (h : ∀ l2 ∈ lines, containsSub l2 requiresPythonKey = false) :
    gpvScan lines = none := by
  induction lines with
  | nil => rfl
  | cons p t ih =>
    rw [gpvScan, if_neg (by simp [h p (List.mem_cons_self _ _)])]
    exact ih fun l2 hl2 => h l2 (List.mem_cons_of_mem _ hl2)

/-- Claim C2 counterexample: for the single-line file
`requires-python = ">=3.8"` the function returns `3.8` — the value after
the LAST `=` of the line, not the value after the first `=` (`>=3.8`) that
the claim states. -/
theorem get_python_version_counterexample :
    get_python_version (some ["requires-python = \">=3.8\"".toList]) = some "3.8".toList ∧
    get_python_version (some ["requires-python = \">=3.8\"".toList]) ≠ some ">=3.8".toList := by
  constructor
  · rfl
  · decide

/-- Claim C2 (amended): on the first line containing `"requires-python"`,
`get_python_version` returns the substring after the LAST `=` of that line
with surrounding whitespace and double quotes trimmed (so the line
`requires-python = ">=3.8"` yields `3.8`); it returns `None` when the file
is missing or unreadable, and when no line contains the key. -/
theorem get_python_version_spec (lines pre post : List (List Char))
    (line l v : List Char) :
    get_python_version none = none ∧
    ((∀ l2 ∈ lines, containsSub l2 requiresPythonKey = false) →
      get_python_version (some lines) = none) ∧
    (lines = pre ++ line :: post →
      (∀ l2 ∈ pre, containsSub l2 requiresPythonKey = false) →
      containsSub line requiresPythonKey = true →
      line = l ++ '=' :: v →
      ('=' : Char) ∉ v →
      get_python_version (some lines) =
        some (pyStrip (fun c => c == '"') (pyStrip pyIsSpace v))) := by
  refine ⟨rfl, ?_, ?_⟩
  · intro h
    exact gpvScan_none lines h
  · rintro rfl hpre hline rfl hv
    show gpvScan _ = _
    rw [gpvScan_append _ _ _ hpre hline]
    unfold extractVersionValue
    rw [splitOnChar_getLastD_append _ _ hv]

/-- Concrete instantiation of `get_python_version_spec` at the line
`requires-python = ">=3.8"`, whose last `=` is the one inside `">="`:
the value kept is `3.8"` before trimming, `3.8` after. -/
theorem get_python_version_spec_witness :
    get_python_version (some ["requires-python = \">=3.8\"".toList]) =
      some (pyStrip (fun c => c == '"') (pyStrip pyIsSpace "3.8\"".toList)) ∧
    pyStrip (fun c => c == '"') (pyStrip pyIsSpace "3.8\"".toList) = "3.8".toList := by
  constructor
  · exact (get_python_version_spec ["requires-python = \">=3.8\"".toList] [] []
      "requires-python = \">=3.8\"".toList "requires-python = \">".toList
      "3.8\"".toList).2.2 rfl (by simp) (by decide) (by decide) (by decide)
  · decide

end ScanProjects
